import Mathlib

/-!
Verification of the cystometry analyzer (`analyzer.py`, `utils.py`, `data.py`)
against its natural-language specification.

The Python source is shallowly embedded: numeric values are rationals (the
source uses Python/numpy floats; all claims under study concern control flow,
lengths and exact update formulas, which the rational model captures; the one
claim about float-specific division-by-zero behavior uses a dedicated IEEE-like
value type `PyFloat`), lists model Python lists / 1-d numpy arrays, and code
that can raise is modelled with `Except` / an explicit error component.
-/

namespace Cystometry

/-- Python slice `xs[:stop]` for an integer `stop` (the only slice form the
source uses with a possibly negative bound): a nonnegative `stop` keeps the
first `stop` elements (clamped to the length), a negative `stop` drops the
last `|stop|` elements (clamped to the empty list). -/
def pySliceTo {α : Type} (xs : List α) (stop : Int) : List α :=
  if stop < 0 then xs.take (xs.length - stop.natAbs) else xs.take stop.toNat

/-- From `utils.moving_average` (utils.py lines 13-22):
`np.convolve` in valid mode, divided by `window`.  For
`1 <= window <= arr.length` (the regime of the claims) the valid-mode
convolution has entry `i` equal to the sum of `arr[i : i+window]`, and the
output length is `arr.length - window + 1`. -/
def moving_average (arr : List ℚ) (window : ℕ) : List ℚ :=
  (List.range (arr.length - window + 1)).map
    (fun i => ((arr.drop i).take window).sum / (window : ℚ))

/-- From `CystometryAnalyzer.analyze` (analyzer.py line 167):
`time = np.array(time[:-moving_avg_window + 1])`, i.e. the Python slice
`time[:(1 - window)]`.  Note that for `window = 1` the stop index is `0`,
so the result is empty. -/
def time_truncate (time : List ℚ) (window : ℕ) : List ℚ :=
  pySliceTo time (-(window : Int) + 1)

/-- From `utils.normalize_len` (utils.py lines 54-73): if `len1 > len2` the
first array becomes `arr1[:len2 - len1]` (a negative-stop Python slice, which
drops the `len1 - len2` trailing elements), symmetrically for `len1 < len2`;
equal lengths are returned unchanged. -/
def normalize_len {α β : Type} (arr1 : List α) (arr2 : List β) : List α × List β :=
  let len1 := arr1.length
  let len2 := arr2.length
  if len1 > len2 then (pySliceTo arr1 ((len2 : Int) - (len1 : Int)), arr2)
  else if len1 < len2 then (arr1, pySliceTo arr2 ((len1 : Int) - (len2 : Int)))
  else (arr1, arr2)

theorem pySliceTo_neg {α : Type} (xs : List α) (k : Int) (hk : k < 0) :
    pySliceTo xs k = xs.take (xs.length - k.natAbs) := by
  simp [pySliceTo, hk]

theorem pySliceTo_take {α : Type} (xs : List α) (m : ℕ) (hm : m < xs.length) :
    pySliceTo xs ((m : Int) - (xs.length : Int)) = xs.take m := by
  rw [pySliceTo_neg _ _ (by omega)]
  congr 1
  omega

/-- C9: `normalize_len` returns two arrays that both have length
`min (len a) (len b)`, each equal to the prefix of that length of the
corresponding input; truncation removes only trailing elements and nothing
is inserted, extended or reordered. -/
theorem normalize_len_spec {α β : Type} (a : List α) (b : List β) :
    (normalize_len a b).1.length = min a.length b.length ∧
    (normalize_len a b).2.length = min a.length b.length ∧
    (normalize_len a b).1 = a.take (min a.length b.length) ∧
    (normalize_len a b).2 = b.take (min a.length b.length) := by
  unfold normalize_len
  rcases lt_trichotomy a.length b.length with h | h | h
  · rw [if_neg (by omega), if_pos h]
    have h1 : pySliceTo b ((a.length : Int) - (b.length : Int)) = b.take a.length :=
      pySliceTo_take b a.length h
    have hmin : min a.length b.length = a.length := by omega
    dsimp only
    rw [h1, hmin]
    refine ⟨rfl, ?_, (List.take_length a).symm, rfl⟩
    rw [List.length_take]
    omega
  · rw [if_neg (by omega), if_neg (by omega)]
    have hmin : min a.length b.length = a.length := by omega
    dsimp only
    rw [hmin]
    exact ⟨rfl, h.symm, (List.take_length a).symm, by rw [h, List.take_length]⟩
  · rw [if_pos h]
    have h1 : pySliceTo a ((b.length : Int) - (a.length : Int)) = a.take b.length :=
      pySliceTo_take a b.length h
    have hmin : min a.length b.length = b.length := by omega
    dsimp only
    rw [h1, hmin]
    refine ⟨?_, rfl, rfl, (List.take_length b).symm⟩
    rw [List.length_take]
    omega

/-- C3 (amended): for every moving-average window `w` with
`2 ≤ w ≤ len press` and a time array of the same length, the smoothed series
has length `len press - w + 1` and the truncated time array has that same
length, obtained by dropping the `w - 1` trailing samples.  (The original
claim also allowed `w = 1`, where the Python slice `time[:-w + 1]` becomes
`time[:0]` and empties the time array — see the counterexample.) -/
theorem smoothing_lengths (press time : List ℚ) (w : ℕ) (h2 : 2 ≤ w)
    (hw : w ≤ press.length) (hlen : time.length = press.length) :
    (moving_average press w).length = press.length - w + 1 ∧
    (time_truncate time w).length = (moving_average press w).length ∧
    time_truncate time w = time.take (time.length - (w - 1)) := by
  have hma : (moving_average press w).length = press.length - w + 1 := by
    simp [moving_average]
  have htt : time_truncate time w = time.take (time.length - (w - 1)) := by
    rw [time_truncate, pySliceTo_neg _ _ (by omega)]
    congr 1
    omega
  refine ⟨hma, ?_, htt⟩
  rw [htt, hma, List.length_take]
  omega

/-- Witness for `smoothing_lengths` at `press = [1, 2, 3]`, `time = [0, 1, 2]`,
`w = 2`. -/
theorem smoothing_lengths_witness :
    2 ≤ 2 ∧ 2 ≤ ([1, 2, 3] : List ℚ).length ∧
    ([0, 1, 2] : List ℚ).length = ([1, 2, 3] : List ℚ).length ∧
    ((moving_average [1, 2, 3] 2).length = ([1, 2, 3] : List ℚ).length - 2 + 1 ∧
     (time_truncate [0, 1, 2] 2).length = (moving_average [1, 2, 3] 2).length ∧
     time_truncate [0, 1, 2] 2 =
       ([0, 1, 2] : List ℚ).take (([0, 1, 2] : List ℚ).length - (2 - 1))) := by
  exact ⟨le_refl 2, by simp, by simp,
    smoothing_lengths [1, 2, 3] [0, 1, 2] 2 (le_refl 2) (by simp) (by simp)⟩

/-- Counterexample to C3 as stated: at `windowSize = 1` (allowed by the
claimed range `1 ≤ windowSize ≤ len pressure`), the smoothed series keeps
all 3 samples but the Python slice `time[:-1 + 1] = time[:0]` empties the
time array, so the two lengths differ. -/
theorem window_one_mismatch_cex :
    (moving_average [1, 2, 3] 1).length = 3 ∧
    (time_truncate [0, 1, 2] 1).length = 0 ∧
    ¬ (time_truncate ([0, 1, 2] : List ℚ) 1).length =
        (moving_average ([1, 2, 3] : List ℚ) 1).length := by
  refine ⟨by simp [moving_average], by rfl, ?_⟩
  simp [moving_average, time_truncate, pySliceTo]

/-- One full scan of a baseline-to-peak section, from the inner `for` loop of
`CystometryAnalyzer.analyze` (analyzer.py lines 221-235): walk the zipped
`(slope, slope2)` pairs keeping an absolute index; `slope < 0.01` re-arms
`allow_hit`; when `slope2 >= pthresh` and `slope > 0` and the (just-updated)
`allow_hit` holds, the absolute index is appended to `hits` and `allow_hit`
is cleared.  Returns the accumulated hits and the final `allow_hit`. -/
def scanSection (pthresh : ℚ) : List (ℚ × ℚ) → ℕ → Bool → List ℕ → List ℕ × Bool
  | [], _, allowHit, hits => (hits, allowHit)
  | (slope, slope2) :: rest, absIdx, allowHit, hits =>
    let allow1 := if slope < 1/100 then true else allowHit
    if slope2 ≥ pthresh ∧ slope > 0 ∧ allow1 = true then
      scanSection pthresh rest (absIdx + 1) false (hits ++ [absIdx])
    else
      scanSection pthresh rest (absIdx + 1) allow1 hits

/-- The relaxation loop of `CystometryAnalyzer.analyze` (analyzer.py lines
218-242): `while len(hits) == 0 and pthresh > 0`, re-scan the whole section
(the absolute index restarting at the start of the bound) and then decrement
`pthresh` by `0.001`.  `hits` and `allow_hit` are threaded exactly as in the
source (they are not explicitly reset between iterations).  Returns the final
hits, the final `pthresh` and the number of loop iterations performed. -/
def relaxLoop (dxz : List (ℚ × ℚ)) (startIdx : ℕ) (hits : List ℕ) (allowHit : Bool)
    (pthresh : ℚ) : List ℕ × ℚ × ℕ :=
  if h : hits = [] ∧ 0 < pthresh then
    let s := scanSection pthresh dxz startIdx allowHit hits
    let r := relaxLoop dxz startIdx s.1 s.2 (pthresh - 1/1000)
    (r.1, r.2.1, r.2.2 + 1)
  else (hits, pthresh, 0)
termination_by (⌈pthresh * 1000⌉).toNat
decreasing_by
  have h2 : (0 : ℚ) < pthresh * 1000 := mul_pos h.2 (by norm_num)
  have h3 : 0 < ⌈pthresh * 1000⌉ := Int.ceil_pos.mpr h2
  have h5 : (pthresh - 1/1000) * 1000 = pthresh * 1000 - 1 := by ring
  have h4 : ⌈(pthresh - 1/1000) * 1000⌉ = ⌈pthresh * 1000⌉ - 1 := by
    rw [h5]
    exact_mod_cast Int.ceil_sub_int (pthresh * 1000) 1
  simp only [h4]
  omega

/-- Result of the threshold search for one baseline-to-peak bound
(analyzer.py lines 213-249): run the relaxation loop on the zipped slopes
(with `hits = []` and `allow_hit = True` at entry, line 215-216); if hits were
recorded take `hits[-1]`, otherwise fall back to `bound.start` when the bound
is closed at the start, or `0` when it is open (lines 246-249). -/
def pthresh_index (dx dx2 : List ℚ) (pthresh : ℚ) (boundStart : Option ℕ) : ℕ :=
  match (relaxLoop (dx.zip dx2) (boundStart.getD 0) [] true pthresh).1 with
  | [] => boundStart.getD 0
  | x :: xs => (x :: xs).getLastD 0

/-- The outer `for` loop of the threshold search (analyzer.py line 213):
one `pthresh_indexes.append` per zipped `(dx, dx2, pthresh, bound)` entry.
(The `peak` component of the zip in the source is unused in the loop body and is
omitted; the `slope_thresholds[i] = pthresh` bookkeeping write does not affect
the produced indices and is not modelled.) -/
def pthresh_indexes (zipped : List ((List ℚ × List ℚ) × ℚ × Option ℕ)) : List ℕ :=
  zipped.map (fun z => pthresh_index z.1.1 z.1.2 z.2.1 z.2.2)

/-- C1: for every baseline-to-peak bound processed, exactly one
pressure-threshold index is produced (the output list has one entry per
zipped bound); when the relaxation loop records at least one hit the result
is the last recorded hit, and when it ends with zero hits the result is the
start index of the bound, or `0` when the bound is open at the start. -/
theorem pthresh_one_per_bound
    (zipped : List ((List ℚ × List ℚ) × ℚ × Option ℕ))
    (dx dx2 : List ℚ) (p : ℚ) (bs : Option ℕ) :
    (pthresh_indexes zipped).length = zipped.length ∧
    ((relaxLoop (dx.zip dx2) (bs.getD 0) [] true p).1 ≠ [] →
      pthresh_index dx dx2 p bs =
        ((relaxLoop (dx.zip dx2) (bs.getD 0) [] true p).1).getLastD 0) ∧
    ((relaxLoop (dx.zip dx2) (bs.getD 0) [] true p).1 = [] →
      pthresh_index dx dx2 p bs = bs.getD 0) := by
  refine ⟨by simp [pthresh_indexes], ?_, ?_⟩
  · intro hne
    unfold pthresh_index
    rcases hc : (relaxLoop (dx.zip dx2) (bs.getD 0) [] true p).1 with _ | ⟨x, xs⟩
    · exact absurd hc hne
    · rfl
  · intro hemp
    unfold pthresh_index
    rw [hemp]

theorem relaxLoop_count_le (dxz : List (ℚ × ℚ)) (s : ℕ) :
    ∀ (n : ℕ) (p : ℚ) (hits : List ℕ) (allow : Bool), (⌈p * 1000⌉).toNat ≤ n →
      (relaxLoop dxz s hits allow p).2.2 ≤ (⌈p * 1000⌉).toNat := by
  intro n
  induction n with
  | zero =>
    intro p hits allow hn
    rw [relaxLoop]
    split
    · rename_i hcond
      have h3 : 0 < ⌈p * 1000⌉ := Int.ceil_pos.mpr (mul_pos hcond.2 (by norm_num))
      omega
    · simp
  | succ n ih =>
    intro p hits allow hn
    rw [relaxLoop]
    split
    · rename_i hcond
      have h3 : 0 < ⌈p * 1000⌉ := Int.ceil_pos.mpr (mul_pos hcond.2 (by norm_num))
      have h4 : ⌈(p - 1/1000) * 1000⌉ = ⌈p * 1000⌉ - 1 := by
        have h5 : (p - 1/1000) * 1000 = p * 1000 - 1 := by ring
        rw [h5]
        exact_mod_cast Int.ceil_sub_int (p * 1000) 1
      have h6 := ih (p - 1/1000) (scanSection p dxz s allow hits).1
        (scanSection p dxz s allow hits).2 (by omega)
      dsimp only
      omega
    · simp

theorem relaxLoop_final_ge (dxz : List (ℚ × ℚ)) (s : ℕ) :
    ∀ (n : ℕ) (p : ℚ) (hits : List ℕ) (allow : Bool),
      (⌈p * 1000⌉).toNat ≤ n → -(1/1000) < p →
      -(1/1000) ≤ (relaxLoop dxz s hits allow p).2.1 := by
  intro n
  induction n with
  | zero =>
    intro p hits allow hn hp
    rw [relaxLoop]
    split
    · rename_i hcond
      have h3 : 0 < ⌈p * 1000⌉ := Int.ceil_pos.mpr (mul_pos hcond.2 (by norm_num))
      omega
    · exact le_of_lt hp
  | succ n ih =>
    intro p hits allow hn hp
    rw [relaxLoop]
    split
    · rename_i hcond
      have h3 : 0 < ⌈p * 1000⌉ := Int.ceil_pos.mpr (mul_pos hcond.2 (by norm_num))
      have h4 : ⌈(p - 1/1000) * 1000⌉ = ⌈p * 1000⌉ - 1 := by
        have h5 : (p - 1/1000) * 1000 = p * 1000 - 1 := by ring
        rw [h5]
        exact_mod_cast Int.ceil_sub_int (p * 1000) 1
      have h6 := ih (p - 1/1000) (scanSection p dxz s allow hits).1
        (scanSection p dxz s allow hits).2 (by omega) (by linarith [hcond.2])
      dsimp only
      exact h6
    · exact le_of_lt hp

/-- C2 (amended): for every section and every initial threshold
`pthresh_initial > 0`, the relaxation loop terminates (the embedded loop is a
total function) after at most `⌈pthresh_initial / 0.001⌉` iterations, and the
final `pthresh` satisfies `pthresh ≥ -0.001`.  As originally stated — at most
`pthresh_initial / 0.001` iterations and final `pthresh ≥ -0.001` for every
initial value — the claim fails; see the counterexample. -/
theorem relax_terminates_bound (dxz : List (ℚ × ℚ)) (s : ℕ) (p : ℚ) (hp : 0 < p) :
    (((relaxLoop dxz s [] true p).2.2 : ℕ) : ℤ) ≤ ⌈p / (1/1000)⌉ ∧
    -(1/1000) ≤ (relaxLoop dxz s [] true p).2.1 := by
  have hdiv : p / (1/1000) = p * 1000 := by ring
  constructor
  · rw [hdiv]
    have h1 := relaxLoop_count_le dxz s (⌈p * 1000⌉).toNat p [] true (le_refl _)
    have h2 : 0 < ⌈p * 1000⌉ := Int.ceil_pos.mpr (mul_pos hp (by norm_num))
    omega
  · exact relaxLoop_final_ge dxz s (⌈p * 1000⌉).toNat p [] true (le_refl _)
      (by linarith)

/-- Witness for `relax_terminates_bound` on the section with a single
`(slope, slope2) = (0, 0)` sample, start index `0` and initial threshold `1`. -/
theorem relax_terminates_bound_witness :
    (0 : ℚ) < 1 ∧
    (((relaxLoop [((0 : ℚ), (0 : ℚ))] 0 [] true 1).2.2 : ℕ) : ℤ) ≤ ⌈(1 : ℚ) / (1/1000)⌉ ∧
    -(1/1000) ≤ (relaxLoop [((0 : ℚ), (0 : ℚ))] 0 [] true 1).2.1 :=
  ⟨by norm_num, relax_terminates_bound [((0 : ℚ), (0 : ℚ))] 0 1 (by norm_num)⟩

/-- Counterexample to C2 as stated.  With the one-sample section
`(slope, slope2) = (0, 0)` (no hit is ever possible) and
`pthresh_initial = 0.0005`, the loop performs `1` iteration, which exceeds the
claimed bound `pthresh_initial / 0.001 = 0.5`; and with
`pthresh_initial = -1` the loop performs zero iterations and the final
`pthresh` is `-1`, which violates the claimed `pthresh ≥ -0.001`. -/
theorem relax_bound_cex :
    (relaxLoop [((0 : ℚ), (0 : ℚ))] 0 [] true (1/2000)).2.2 = 1 ∧
    ¬ (((relaxLoop [((0 : ℚ), (0 : ℚ))] 0 [] true (1/2000)).2.2 : ℚ) ≤
        (1/2000) / (1/1000)) ∧
    (relaxLoop [((0 : ℚ), (0 : ℚ))] 0 [] true (-1)).2.1 = -1 ∧
    ¬ (-(1/1000 : ℚ) ≤ (relaxLoop [((0 : ℚ), (0 : ℚ))] 0 [] true (-1)).2.1) := by
  have h1 : relaxLoop [((0 : ℚ), (0 : ℚ))] 0 [] true (1/2000) = ([], -1/2000, 1) := by
    rw [relaxLoop]
    rw [dif_pos (by norm_num)]
    norm_num [scanSection]
    rw [relaxLoop]
    rw [dif_neg (by norm_num)]
    simp
  have h2 : relaxLoop [((0 : ℚ), (0 : ℚ))] 0 [] true (-1) = ([], -1, 0) := by
    rw [relaxLoop]
    rw [dif_neg (by norm_num)]
  rw [h1, h2]
  norm_num

/-- Witness for `pthresh_one_per_bound`: with `dx = [1]`, `dx2 = [5]`,
`pthresh = 1`, bound start `3`, the single scan records the hit `3` and the
produced index is that last hit; with `dx = [0]`, `dx2 = [0]`,
`pthresh = 0.001`, open bound start, the loop exhausts with zero hits and the
produced index falls back to `0`. -/
theorem pthresh_one_per_bound_witness :
    (relaxLoop (([(1 : ℚ)]).zip [(5 : ℚ)]) ((some 3 : Option ℕ).getD 0) [] true 1).1 ≠ [] ∧
    pthresh_index [1] [5] 1 (some 3) =
      ((relaxLoop (([(1 : ℚ)]).zip [(5 : ℚ)]) ((some 3 : Option ℕ).getD 0) [] true 1).1).getLastD 0 ∧
    (relaxLoop (([(0 : ℚ)]).zip [(0 : ℚ)]) ((none : Option ℕ).getD 0) [] true (1/1000)).1 = [] ∧
    pthresh_index [0] [0] (1/1000) none = (none : Option ℕ).getD 0 := by
  have e1 : relaxLoop (([(1 : ℚ)]).zip [(5 : ℚ)]) ((some 3 : Option ℕ).getD 0) [] true 1 =
      ([3], 999/1000, 1) := by
    show relaxLoop [((1 : ℚ), (5 : ℚ))] 3 [] true 1 = ([3], 999/1000, 1)
    rw [relaxLoop]
    rw [dif_pos (by norm_num)]
    norm_num [scanSection]
    rw [relaxLoop]
    rw [dif_neg (by norm_num)]
    simp
  have e2 : relaxLoop (([(0 : ℚ)]).zip [(0 : ℚ)]) ((none : Option ℕ).getD 0) [] true (1/1000) =
      ([], 0, 1) := by
    show relaxLoop [((0 : ℚ), (0 : ℚ))] 0 [] true (1/1000) = ([], 0, 1)
    rw [relaxLoop]
    rw [dif_pos (by norm_num)]
    norm_num [scanSection]
    rw [relaxLoop]
    rw [dif_neg (by norm_num)]
    simp
  have hne : (relaxLoop (([(1 : ℚ)]).zip [(5 : ℚ)]) ((some 3 : Option ℕ).getD 0) [] true 1).1 ≠ [] := by
    rw [e1]
    simp
  have hemp : (relaxLoop (([(0 : ℚ)]).zip [(0 : ℚ)]) ((none : Option ℕ).getD 0) [] true (1/1000)).1 = [] := by
    rw [e2]
  exact ⟨hne, (pthresh_one_per_bound [] [1] [5] 1 (some 3)).2.1 hne, hemp,
    (pthresh_one_per_bound [] [0] [0] (1/1000) none).2.2 hemp⟩

structure VolState where
  curr_vol : ℚ
  max_vol : ℚ
  slope_index : ℕ
deriving DecidableEq

inductive VolErr where
  | indexError : VolErr
deriving DecidableEq

/-- One sample of the forward volume-integration pass
(`CystometryAnalyzer.analyze`, analyzer.py lines 287-298): if the time of the
sample is in the filling time set, `curr_vol += flow_volume / 60 * time_step`
and `max_vol = curr_vol`; `elif` it is in the voiding time set and
`curr_vol > 0`, `curr_vol -= max_vol / volume_down_slopes[slope_index] *
time_step` (the Python list indexing raises `IndexError` when
`slope_index` is out of range, modelled by `Except.error`); then
`slope_index` is advanced when the sample index is a valley, and `curr_vol`
is appended.  Arithmetic is modelled over `ℚ` (the rational-division value at
a zero `volume_down_slopes` entry is junk; the numpy float64 behavior of that
zero-divisor case is modelled separately by `void_update`). -/
def volStep (filling voiding : List ℚ) (volume_down_slopes : List ℚ)
    (valleys : List ℕ) (flow_volume time_step : ℚ)
    (st : VolState) (i : ℕ) (t : ℚ) : Except VolErr (VolState × ℚ) :=
  let st1 :=
    if t ∈ filling then
      let c := st.curr_vol + flow_volume / 60 * time_step
      Except.ok { st with curr_vol := c, max_vol := c }
    else if t ∈ voiding ∧ 0 < st.curr_vol then
      match volume_down_slopes.get? st.slope_index with
      | none => Except.error VolErr.indexError
      | some sl =>
        Except.ok { st with curr_vol := st.curr_vol - st.max_vol / sl * time_step }
    else Except.ok st
  match st1 with
  | Except.error e => Except.error e
  | Except.ok stOk =>
    let st2 := if i ∈ valleys then { stOk with slope_index := stOk.slope_index + 1 } else stOk
    Except.ok (st2, st2.curr_vol)

/-- The whole forward pass `for i, t in enumerate(time)` (analyzer.py lines
286-298), starting from `curr_vol = 0`, `max_vol = 0`, `slope_index = 0` at
the call site; one output volume per time sample. -/
def volumeLoop (filling voiding slopes : List ℚ) (valleys : List ℕ)
    (flow_volume time_step : ℚ) : VolState → ℕ → List ℚ → Except VolErr (List ℚ)
  | _, _, [] => Except.ok []
  | st, i, t :: ts =>
    match volStep filling voiding slopes valleys flow_volume time_step st i t with
    | Except.error e => Except.error e
    | Except.ok (st2, v) =>
      match volumeLoop filling voiding slopes valleys flow_volume time_step st2 (i + 1) ts with
      | Except.error e => Except.error e
      | Except.ok vs => Except.ok (v :: vs)

/-- C4: for every sample whose time value lies in the filling-window time set
— whether or not it also lies in a voiding window, since the filling branch
is evaluated first — the volume recorded at that sample equals the previous
volume plus exactly `flow_volume / 60 * time_step`, and `max_vol` is set to
that new current volume (the valley bookkeeping on `slope_index` is the only
other state change). -/
theorem volStep_filling (filling voiding slopes : List ℚ) (valleys : List ℕ)
    (fv dt : ℚ) (st : VolState) (i : ℕ) (t : ℚ) (ht : t ∈ filling) :
    volStep filling voiding slopes valleys fv dt st i t =
      Except.ok
        ({ curr_vol := st.curr_vol + fv / 60 * dt,
           max_vol := st.curr_vol + fv / 60 * dt,
           slope_index :=
             if i ∈ valleys then st.slope_index + 1 else st.slope_index },
         st.curr_vol + fv / 60 * dt) := by
  unfold volStep
  rw [if_pos ht]
  by_cases hv : i ∈ valleys
  · simp [hv]
  · simp [hv]

/-- Witness for `volStep_filling` at a sample whose time `5` lies in both the
filling and the voiding time sets: the filling branch is taken. -/
theorem volStep_filling_witness :
    (5 : ℚ) ∈ [(5 : ℚ)] ∧
    volStep [(5 : ℚ)] [(5 : ℚ)] [] [] 60 1 ⟨0, 0, 0⟩ 0 5 =
      Except.ok (({ curr_vol := 1, max_vol := 1, slope_index := 0 } : VolState), 1) := by
  refine ⟨by simp, ?_⟩
  have h := volStep_filling [(5 : ℚ)] [(5 : ℚ)] [] [] 60 1 ⟨0, 0, 0⟩ 0 5 (by simp)
  rw [h]
  norm_num

/-- An IEEE-754-style value, used to model numpy float64 arithmetic where the
rational model cannot: finite values are exact rationals, plus the two
infinities and nan.  Signed zero is not modelled (the voiding spans of the source
come from `np.array` elements, whose zero is `0.0`). -/
inductive PyFloat where
  | fin : ℚ → PyFloat
  | inf : PyFloat
  | ninf : PyFloat
  | nan : PyFloat
deriving DecidableEq

/-- numpy float64 division: division by zero yields an infinity (or nan for
0/0) together with a RuntimeWarning — it does not raise an exception. -/
def pyDiv : PyFloat → PyFloat → PyFloat
  | PyFloat.nan, _ => PyFloat.nan
  | _, PyFloat.nan => PyFloat.nan
  | PyFloat.fin a, PyFloat.fin b =>
    if b = 0 then
      if 0 < a then PyFloat.inf else if a < 0 then PyFloat.ninf else PyFloat.nan
    else PyFloat.fin (a / b)
  | PyFloat.fin _, PyFloat.inf => PyFloat.fin 0
  | PyFloat.fin _, PyFloat.ninf => PyFloat.fin 0
  | PyFloat.inf, PyFloat.fin b => if 0 ≤ b then PyFloat.inf else PyFloat.ninf
  | PyFloat.ninf, PyFloat.fin b => if 0 ≤ b then PyFloat.ninf else PyFloat.inf
  | PyFloat.inf, PyFloat.inf => PyFloat.nan
  | PyFloat.inf, PyFloat.ninf => PyFloat.nan
  | PyFloat.ninf, PyFloat.inf => PyFloat.nan
  | PyFloat.ninf, PyFloat.ninf => PyFloat.nan

/-- numpy float64 multiplication on the `PyFloat` model. -/
def pyMul : PyFloat → PyFloat → PyFloat
  | PyFloat.nan, _ => PyFloat.nan
  | _, PyFloat.nan => PyFloat.nan
  | PyFloat.fin a, PyFloat.fin b => PyFloat.fin (a * b)
  | PyFloat.inf, PyFloat.fin b =>
    if 0 < b then PyFloat.inf else if b < 0 then PyFloat.ninf else PyFloat.nan
  | PyFloat.ninf, PyFloat.fin b =>
    if 0 < b then PyFloat.ninf else if b < 0 then PyFloat.inf else PyFloat.nan
  | PyFloat.fin a, PyFloat.inf =>
    if 0 < a then PyFloat.inf else if a < 0 then PyFloat.ninf else PyFloat.nan
  | PyFloat.fin a, PyFloat.ninf =>
    if 0 < a then PyFloat.ninf else if a < 0 then PyFloat.inf else PyFloat.nan
  | PyFloat.inf, PyFloat.inf => PyFloat.inf
  | PyFloat.inf, PyFloat.ninf => PyFloat.ninf
  | PyFloat.ninf, PyFloat.inf => PyFloat.ninf
  | PyFloat.ninf, PyFloat.ninf => PyFloat.inf

/-- numpy float64 subtraction on the `PyFloat` model. -/
def pySub : PyFloat → PyFloat → PyFloat
  | PyFloat.nan, _ => PyFloat.nan
  | _, PyFloat.nan => PyFloat.nan
  | PyFloat.fin a, PyFloat.fin b => PyFloat.fin (a - b)
  | PyFloat.fin _, PyFloat.inf => PyFloat.ninf
  | PyFloat.fin _, PyFloat.ninf => PyFloat.inf
  | PyFloat.inf, PyFloat.fin _ => PyFloat.inf
  | PyFloat.ninf, PyFloat.fin _ => PyFloat.ninf
  | PyFloat.inf, PyFloat.inf => PyFloat.nan
  | PyFloat.inf, PyFloat.ninf => PyFloat.inf
  | PyFloat.ninf, PyFloat.inf => PyFloat.ninf
  | PyFloat.ninf, PyFloat.ninf => PyFloat.nan

/-- The voiding decrement of analyzer.py line 293,
`curr_vol - max_vol / volume_down_slopes[slope_index] * time_step`, with the
operands evaluated under numpy float64 semantics (`volume_down_slopes` holds
`np.float64` differences of `np.array` time sections, so a zero divisor
produces an infinity, not a `ZeroDivisionError`). -/
def void_update (curr_vol max_vol slope time_step : PyFloat) : PyFloat :=
  pySub curr_vol (pyMul (pyDiv max_vol slope) time_step)

/-- Counterexample to C5 as stated: with `curr_vol = 5`, `max_vol = 5`,
`voidSlope = 0` and `dt = 1` the voiding decrement does NOT fail — numpy
float64 division by zero returns `+inf` (with a RuntimeWarning), so the
update produces the numeric (non-finite) result `-inf` and the pass
continues; no `FatalArithmeticError` (nor any exception) exists on this path
in the code. -/
theorem void_zero_slope_cex :
    void_update (PyFloat.fin 5) (PyFloat.fin 5) (PyFloat.fin 0) (PyFloat.fin 1) =
      PyFloat.ninf := by
  norm_num [void_update, pyDiv, pyMul, pySub]

/-- C5 (amended): if `voidSlope[currentVoidIndex]` is zero when a voiding
decrement is applied with a positive `max_vol` and positive `time_step`, the
operation does not fail: the numpy float64 division yields `+inf` and the new
current volume is the numeric non-finite value `-inf`. -/
theorem void_zero_slope_ninf (c m d : ℚ) (hm : 0 < m) (hd : 0 < d) :
    void_update (PyFloat.fin c) (PyFloat.fin m) (PyFloat.fin 0) (PyFloat.fin d) =
      PyFloat.ninf := by
  simp only [void_update, pyDiv, if_pos rfl, if_pos hm, pyMul, if_pos hd, pySub]
  simp [hd]

/-- Witness for `void_zero_slope_ninf` at `curr_vol = 2`, `max_vol = 5`,
`slope = 0`, `dt = 1`. -/
theorem void_zero_slope_ninf_witness :
    (0 : ℚ) < 5 ∧ (0 : ℚ) < 1 ∧
    void_update (PyFloat.fin 2) (PyFloat.fin 5) (PyFloat.fin 0) (PyFloat.fin 1) =
      PyFloat.ninf :=
  ⟨by norm_num, by norm_num, void_zero_slope_ninf 2 5 1 (by norm_num) (by norm_num)⟩

/-- The local-maxima pass of scipy `find_peaks` (`_local_maxima_1d`), as called at
analyzer.py line 176: index `i` (with `1 <= i <= n - 2`) starts a peak when
`x[i-1] < x[i]`; the plateau is followed to the first `j > i` with
`x[j] != x[i]` (the walk stops at index `n - 1`); the candidate is a peak iff
that `j` exists with `x[j] < x[i]`, and the recorded index is the plateau
midpoint `(i + j - 1) // 2`. -/
def localMaxima (xs : List ℚ) : List ℕ :=
  (List.range xs.length).filterMap (fun i =>
    if 1 ≤ i ∧ i + 1 < xs.length ∧ xs.getD (i - 1) 0 < xs.getD i 0 then
      match (List.range' (i + 1) (xs.length - 1 - i)).find?
          (fun j => decide (xs.getD j 0 ≠ xs.getD i 0)) with
      | some j => if xs.getD j 0 < xs.getD i 0 then some ((i + j - 1) / 2) else none
      | none => none
    else none)

/-- scipy `_peak_prominences` with `wlen = None`: from a peak `p`, walk left
while `x[i] <= x[p]` (stopping at the array border or at the first strictly
higher sample) and take the minimum of the walked range; symmetrically to the
right; the prominence is `x[p] - max(leftMin, rightMin)`. -/
def promOf (xs : List ℚ) (p : ℕ) : ℚ :=
  let xp := xs.getD p 0
  let lbound : ℕ :=
    match ((List.range p).filter (fun i => decide (xp < xs.getD i 0))).max? with
    | some m => m + 1
    | none => 0
  let rbound : ℕ :=
    match ((List.range' (p + 1) (xs.length - 1 - p)).filter
        (fun j => decide (xp < xs.getD j 0))).min? with
    | some m => m - 1
    | none => xs.length - 1
  let leftMin := ((List.range' lbound (p + 1 - lbound)).map (fun i => xs.getD i 0)).foldl min xp
  let rightMin := ((List.range' p (rbound + 1 - p)).map (fun j => xs.getD j 0)).foldl min xp
  xp - max leftMin rightMin

/-- `find_peaks(moving_avg_vals, prominence=prominence)` (analyzer.py line
176): the local maxima whose prominence reaches the threshold. -/
def find_peaks_prom (xs : List ℚ) (prominence : ℚ) : List ℕ :=
  (localMaxima xs).filter (fun p => decide (prominence ≤ promOf xs p))

/-- `np.diff`: consecutive differences. -/
def npDiff (l : List ℤ) : List ℤ :=
  (l.zip l.tail).map (fun q => q.2 - q.1)

inductive PeakErr where
  | emptyMin : PeakErr
deriving DecidableEq

/-- The Python builtin `min` over a sequence: it raises `ValueError` on an
empty sequence. -/
def pyMin (l : List ℤ) : Except PeakErr ℤ :=
  match l with
  | [] => Except.error PeakErr.emptyMin
  | x :: rest => Except.ok (rest.foldl min x)

/-- The `distance` argument of the valley detection at analyzer.py line 177,
`min(np.diff(peaks)) // 2` where `peaks` comes from line 176.  Python
evaluates this argument before `find_peaks` is called for the valleys, so
when it raises, valley detection never runs and `analyze` aborts with the
propagated error. -/
def intsOf (l : List ℕ) : List ℤ :=
  List.map Int.ofNat l

theorem intsOf_length (l : List ℕ) : (intsOf l).length = l.length := by
  unfold intsOf
  exact List.length_map l _

def valleys_distance (vals : List ℚ) (prominence : ℚ) : Except PeakErr ℤ :=
  match pyMin (npDiff (intsOf (find_peaks_prom vals prominence))) with
  | Except.error e => Except.error e
  | Except.ok m => Except.ok (Int.fdiv m 2)

theorem npDiff_short (l : List ℤ) (h : l.length < 2) : npDiff l = [] := by
  rcases l with _ | ⟨a, _ | ⟨b, t⟩⟩
  · rfl
  · rfl
  · exact absurd h (by simp)

/-- C6 (amended): whenever landmark detection finds fewer than 2 peaks (zero
or exactly one), the analysis fails at the valley-detection step and the
error propagates to the caller — never silently empty results: the
separation constraint `min(np.diff(peaks)) // 2` applies the Python `min` to
an empty difference sequence and raises.  In particular, with exactly one
peak, valley detection does NOT proceed without a separation constraint. -/
theorem few_peaks_error (vals : List ℚ) (prom : ℚ)
    (h : (find_peaks_prom vals prom).length < 2) :
    valleys_distance vals prom = Except.error PeakErr.emptyMin := by
  unfold valleys_distance
  rw [npDiff_short _ (by rw [intsOf_length]; exact h)]
  rfl

/-- Witness for `few_peaks_error` on the flat trace `[0, 0, 0]`, where zero
peaks are found. -/
theorem few_peaks_error_witness :
    (find_peaks_prom [0, 0, 0] 1).length < 2 ∧
    valleys_distance [0, 0, 0] 1 = Except.error PeakErr.emptyMin := by
  have hl : localMaxima [0, 0, 0] = [] := by decide
  have h : (find_peaks_prom [0, 0, 0] 1).length < 2 := by
    rw [find_peaks_prom, hl]
    simp
  exact ⟨h, few_peaks_error [0, 0, 0] 1 h⟩

/-- Counterexample to C6 as stated: on the trace `[0, 5, 0]` landmark
detection finds exactly one peak (index 1, prominence 5), but valley
detection does not proceed with no minimum-separation constraint — computing
the constraint itself, `min(np.diff(peaks))`, raises on the empty difference
sequence (`ValueError: min() arg is an empty sequence`), aborting the
analysis. -/
theorem one_peak_cex :
    find_peaks_prom [0, 5, 0] 1 = [1] ∧
    valleys_distance [0, 5, 0] 1 = Except.error PeakErr.emptyMin := by
  have hl : localMaxima [0, 5, 0] = [1] := by decide
  have hp : promOf [0, 5, 0] 1 = 5 := by
    norm_num [promOf, List.range_succ, List.range']
  have h : find_peaks_prom [0, 5, 0] 1 = [1] := by
    rw [find_peaks_prom, hl]
    norm_num [hp]
  refine ⟨h, ?_⟩
  unfold valleys_distance
  rw [npDiff_short _ (by rw [intsOf_length, h]; simp)]
  rfl

structure CystometryData where
  time : List ℚ
  values : List ℚ
  derivative2 : List ℚ
  moving_avg_vals : List ℚ
  peaks : List ℕ
  baselines : List ℕ
  pressure_threshold_idx : List ℕ
  volume_empty_idx : List ℕ
  volume : List ℚ
  baseline_bounds : List (Option ℕ × Option ℕ)
  slope_thresholds : List ℚ
deriving DecidableEq

/-- The session state of `CystometryAnalyzer` (analyzer.py lines 60-70):
`_data_path`, `_data` (the analysis result) and `_raw_data`. -/
structure CystometryAnalyzer where
  data_path : Option String
  data : Option CystometryData
  raw_data : Option (List ℚ × List ℚ)
deriving DecidableEq

/-- The constructor `CystometryAnalyzer.init` (analyzer.py lines 60-70). -/
def initAnalyzer (path : Option String) : CystometryAnalyzer :=
  { data_path := path, data := none, raw_data := none }

/-- `set_data` (analyzer.py lines 72-87): stores the raw series; it touches
neither `_data` nor `_data_path`. -/
def set_data (s : CystometryAnalyzer) (time_data pressure_data : List ℚ) :
    CystometryAnalyzer :=
  { s with raw_data := some (time_data, pressure_data) }

/-- `set_file` (analyzer.py lines 89-104): clears `_data` and `_raw_data`
and stores the new path. -/
def set_file (_s : CystometryAnalyzer) (path : String) : CystometryAnalyzer :=
  { data_path := some path, data := none, raw_data := none }

/-- `has_file` (analyzer.py lines 360-366). -/
def has_file (s : CystometryAnalyzer) : Bool :=
  match s.data_path with
  | none => false
  | some p => decide (p ≠ "")

/-- `has_data` (analyzer.py lines 368-374). -/
def has_data (s : CystometryAnalyzer) : Bool :=
  s.data.isSome

/-- `get_data` (analyzer.py lines 383-390): plainly returns `self._data`,
which is `None` whenever no analysis result is stored. -/
def get_data (s : CystometryAnalyzer) : Option CystometryData :=
  s.data

inductive LoadErr where
  | missingFile : LoadErr
  | indexError : LoadErr
  | valueError : LoadErr
deriving DecidableEq

/-- One cell access `float(row[col])` of `CystometryAnalyzer.load`
(analyzer.py lines 133-134): `IndexError` when the column is out of range,
`ValueError` when the text does not parse as a float.  Cells are
pre-abstracted as `Option ℚ` (`none` = unparseable text), since Python float
parsing is outside the embedded core. -/
def parseCell (row : List (Option ℚ)) (col : ℕ) : Except LoadErr ℚ :=
  match row.get? col with
  | none => Except.error LoadErr.indexError
  | some none => Except.error LoadErr.valueError
  | some (some q) => Except.ok q

/-- The row loop of `CystometryAnalyzer.load` (analyzer.py lines 130-134):
rows with `line_num < skip_rows` are skipped; for each remaining row the
pressure cell is read first, then the time cell (matching the append order
of the source); the first failure aborts the whole parse. -/
def parseRowsAux (time_col pressure_col skip_rows : ℕ) :
    List (List (Option ℚ)) → ℕ → Except LoadErr (List ℚ × List ℚ)
  | [], _ => Except.ok ([], [])
  | r :: rest, lineNum =>
    if lineNum < skip_rows then parseRowsAux time_col pressure_col skip_rows rest (lineNum + 1)
    else
      match parseCell r pressure_col with
      | Except.error e => Except.error e
      | Except.ok v =>
        match parseCell r time_col with
        | Except.error e => Except.error e
        | Except.ok t =>
          match parseRowsAux time_col pressure_col skip_rows rest (lineNum + 1) with
          | Except.error e => Except.error e
          | Except.ok tv => Except.ok (t :: tv.1, v :: tv.2)

/-- `CystometryAnalyzer.load` (analyzer.py lines 106-138) as a state
transformer over the session: the `MissingFileError` guard, then the parse of
the whole file into the two local lists, and only then the single state write
`self._raw_data = time, vals` (line 136); an exception anywhere earlier
leaves the session untouched (`_data` is never written).  The rows of the
file are passed in since file I/O is external to the core.  Returns the post-call
state and the raised error, if any. -/
def load (s : CystometryAnalyzer) (rows : List (List (Option ℚ)))
    (time_col pressure_col skip_rows : ℕ) : CystometryAnalyzer × Option LoadErr :=
  if has_file s = true then
    match parseRowsAux time_col pressure_col skip_rows rows 0 with
    | Except.error e => (s, some e)
    | Except.ok tv => ({ s with raw_data := some tv }, none)
  else (s, some LoadErr.missingFile)

inductive AnalyzeFail where
  | fileNotLoaded : AnalyzeFail
  | internal : AnalyzeFail
deriving DecidableEq

/-- `CystometryAnalyzer.analyze` (analyzer.py lines 140-316) as a state
transformer: the `FileNotLoadedError` guard (lines 159-161), then the
analysis body (lines 163-299), which computes only local values from the raw
data — it reads no other session state and writes none — abstracted here as
an arbitrary pure, possibly-failing function `f` (`none` models any exception
raised inside the body); the single mutation of the session,
`self._data = CystometryData(...)` (line 302), happens only after the whole
body has succeeded.  Returns the post-call state and the error, if any. -/
def analyzeRun (f : List ℚ × List ℚ → Option CystometryData)
    (s : CystometryAnalyzer) : CystometryAnalyzer × Option AnalyzeFail :=
  match s.raw_data with
  | none => (s, some AnalyzeFail.fileNotLoaded)
  | some raw =>
    match f raw with
    | none => (s, some AnalyzeFail.internal)
    | some d => ({ s with data := some d }, none)

inductive DataErr where
  | missingData : DataErr
deriving DecidableEq

/-- `visualize_data` (analyzer.py lines 318-337): `MissingDataError` when no
analysis result is stored, otherwise it delegates to plotting; in both cases
the session state is untouched. -/
def visualize_data (s : CystometryAnalyzer) : CystometryAnalyzer × Option DataErr :=
  if has_data s = true then (s, none) else (s, some DataErr.missingData)

/-- `export_data` (analyzer.py lines 339-358): `MissingDataError` when no
analysis result is stored, otherwise it delegates to the CSV export; in both
cases the session state is untouched. -/
def export_data (s : CystometryAnalyzer) : CystometryAnalyzer × Option DataErr :=
  if has_data s = true then (s, none) else (s, some DataErr.missingData)

/-- An all-empty analysis result, used as a concrete stored result. -/
def emptyCD : CystometryData :=
  { time := [], values := [], derivative2 := [], moving_avg_vals := [],
    peaks := [], baselines := [], pressure_threshold_idx := [],
    volume_empty_idx := [], volume := [], baseline_bounds := [],
    slope_thresholds := [] }

def samplePath : String := "f"

/-- A session holding an analysis result and no raw series. -/
def sessionA : CystometryAnalyzer :=
  { data_path := some samplePath, data := some emptyCD, raw_data := none }

/-- A session holding an analysis result and a raw series. -/
def sessionB : CystometryAnalyzer :=
  { data_path := some samplePath, data := some emptyCD, raw_data := some ([5], [6]) }

/-- Counterexample to C7 as stated: on a fresh (never-analyzed) session,
`get_data` does not fail with any error — it returns `None`
(`self._data`), exactly as its own docstring says. -/
theorem get_result_none_cex :
    has_data (initAnalyzer none) = false ∧
    get_data (initAnalyzer none) = none :=
  ⟨rfl, rfl⟩

/-- C7 (amended): `getResult` never fails; whenever the session is not in
the Analyzed state (no stored result) it returns `None` rather than raising
`NoResultError` — in particular after selectFile followed by any load
(successful or not) and no analyze, it returns `None`. -/
theorem get_data_not_analyzed (s : CystometryAnalyzer) (path : String)
    (rows : List (List (Option ℚ))) (tc pc skip : ℕ) :
    (has_data s = false → get_data s = none) ∧
    get_data ((load (set_file s path) rows tc pc skip).1) = none := by
  constructor
  · intro h
    unfold has_data at h
    unfold get_data
    cases hd : s.data with
    | none => rfl
    | some d =>
      rw [hd] at h
      exact absurd h (by simp)
  · unfold load
    by_cases hf : has_file (set_file s path) = true
    · rw [if_pos hf]
      cases hp : parseRowsAux tc pc skip rows 0 with
      | error e => rfl
      | ok tv => rfl
    · rw [if_neg hf]
      rfl

/-- Witness for `get_data_not_analyzed` on the fresh session with path
`samplePath` and a one-row file. -/
theorem get_data_not_analyzed_witness :
    has_data (initAnalyzer none) = false ∧
    get_data (initAnalyzer none) = none ∧
    get_data ((load (set_file (initAnalyzer none) samplePath)
      [[some 0, some 1]] 0 1 0).1) = none := by
  have h := get_data_not_analyzed (initAnalyzer none) samplePath
    [[some 0, some 1]] 0 1 0
  exact ⟨rfl, h.1 rfl, h.2⟩

/-- Counterexample to C8 as stated: on a session holding an analysis result,
`set_data` (analyzer.py lines 72-87) and a successful `load` (lines 106-138)
replace the raw series but do NOT clear the stored result — `self._data` is
never written by either, so immediately after them the session still holds
the old `AnalysisResult`. -/
theorem set_keeps_result_cex :
    (set_data sessionA [0] [1]).data = some emptyCD ∧
    ¬ (set_data sessionA [0] [1]).data = none ∧
    (load sessionA [[some 0, some 1]] 0 1 0).2 = none ∧
    ((load sessionA [[some 0, some 1]] 0 1 0).1).data = some emptyCD := by
  refine ⟨rfl, by simp [set_data, sessionA], ?_, ?_⟩ <;> rfl

/-- C8 (amended): `setRawData` and `load` replace the stored
RawSeries of the session (on success, `load` stores exactly the parsed columns), but
neither clears a previously stored AnalysisResult — `self._data` is
untouched by both, and is only replaced by the next analyze (`set_file` is
the operation that clears it). -/
theorem load_set_raw_effect (s : CystometryAnalyzer) (t p : List ℚ)
    (rows : List (List (Option ℚ))) (tc pc skip : ℕ) :
    (set_data s t p).raw_data = some (t, p) ∧
    (set_data s t p).data = s.data ∧
    (set_data s t p).data_path = s.data_path ∧
    ((load s rows tc pc skip).1).data = s.data ∧
    (has_file s = true → ∀ tv, parseRowsAux tc pc skip rows 0 = Except.ok tv →
      load s rows tc pc skip = ({ s with raw_data := some tv }, none)) := by
  refine ⟨rfl, rfl, rfl, ?_, ?_⟩
  · unfold load
    by_cases hf : has_file s = true
    · rw [if_pos hf]
      cases hp : parseRowsAux tc pc skip rows 0 with
      | error e => rfl
      | ok tv => rfl
    · rw [if_neg hf]
  · intro hf tv hp
    unfold load
    rw [if_pos hf, hp]

/-- Witness for `load_set_raw_effect` on a session holding a result and a
raw series, with a one-row file that parses to `([2], [3])`. -/
theorem load_set_raw_effect_witness :
    (set_data sessionB [0] [1]).raw_data = some ([0], [1]) ∧
    (set_data sessionB [0] [1]).data = sessionB.data ∧
    has_file sessionB = true ∧
    parseRowsAux 0 1 0 [[some 2, some 3]] 0 = Except.ok ([2], [3]) ∧
    load sessionB [[some 2, some 3]] 0 1 0 =
      ({ sessionB with raw_data := some ([2], [3]) }, none) := by
  have h := load_set_raw_effect sessionB [0] [1] [[some 2, some 3]] 0 1 0
  exact ⟨h.1, h.2.1, rfl, rfl, h.2.2.2.2 rfl ([2], [3]) rfl⟩

/-- C10: every session operation other than selectFile leaves the stored
session state (path, RawSeries, AnalysisResult) exactly unchanged when it
raises: a load that fails (missing file, column index out of range, or
float-parse failure on any row) leaves the prior state with no partial rows
recorded — the source parses into locals and writes `self._raw_data` only
after the whole file is consumed — and an analyze that fails at any internal
step (not loaded, or any exception in the analysis body `f`) leaves the
prior result and raw series unchanged; visualize/export never mutate the
session, whether they raise or not. -/
theorem error_leaves_state_unchanged (s : CystometryAnalyzer)
    (rows : List (List (Option ℚ))) (tc pc skip : ℕ)
    (f : List ℚ × List ℚ → Option CystometryData) :
    ((load s rows tc pc skip).2 ≠ none → (load s rows tc pc skip).1 = s) ∧
    ((analyzeRun f s).2 ≠ none → (analyzeRun f s).1 = s) ∧
    (visualize_data s).1 = s ∧
    (export_data s).1 = s := by
  refine ⟨?_, ?_, ?_, ?_⟩
  · unfold load
    by_cases hf : has_file s = true
    · rw [if_pos hf]
      cases hp : parseRowsAux tc pc skip rows 0 with
      | error e => intro _; rfl
      | ok tv => intro hne; exact absurd rfl hne
    · rw [if_neg hf]
      intro _
      rfl
  · unfold analyzeRun
    cases hr : s.raw_data with
    | none => intro _; rfl
    | some raw =>
      dsimp only
      cases hf : f raw with
      | none => intro _; rfl
      | some d => intro hne; exact absurd rfl hne
  · unfold visualize_data
    by_cases hd : has_data s = true
    · rw [if_pos hd]
    · rw [if_neg hd]
  · unfold export_data
    by_cases hd : has_data s = true
    · rw [if_pos hd]
    · rw [if_neg hd]

/-- Witness for `error_leaves_state_unchanged` on a fresh session, where both
load (no file selected) and analyze (no data loaded) raise. -/
theorem error_leaves_state_unchanged_witness :
    ((load (initAnalyzer none) [] 0 1 0).2 ≠ none ∧
     (load (initAnalyzer none) [] 0 1 0).1 = initAnalyzer none) ∧
    ((analyzeRun (fun _ => none) (initAnalyzer none)).2 ≠ none ∧
     (analyzeRun (fun _ => none) (initAnalyzer none)).1 = initAnalyzer none) ∧
    (visualize_data (initAnalyzer none)).1 = initAnalyzer none ∧
    (export_data (initAnalyzer none)).1 = initAnalyzer none := by
  have h := error_leaves_state_unchanged (initAnalyzer none) [] 0 1 0 (fun _ => none)
  have h1 : (load (initAnalyzer none) [] 0 1 0).2 ≠ none := by
    simp [load, has_file, initAnalyzer]
  have h2 : (analyzeRun (fun _ => none) (initAnalyzer none)).2 ≠ none := by
    simp [analyzeRun, initAnalyzer]
  exact ⟨⟨h1, h.1 h1⟩, ⟨h2, h.2.1 h2⟩, h.2.2.1, h.2.2.2⟩

end Cystometry
